import Mathlib

/-!
# Verification of the RCM claim update / history flow

Shallow embedding of the claim-update pipeline of the RCM billing-claims
administration tool:

* the API client `updateClaim` payload sanitation (numeric coercion, date
  normalization, legacy-field stripping) and its retry loop
  (frontend/src/services/claimService, bundled in `App.tsx`);
* the `ClaimProvider` state manager `updateClaim` optimistic-update /
  reconcile / rollback protocol (`contexts/AuthContext.tsx`, second part);
* the `HistorySection` load/render logic
  (`components/profile/HistorySection.tsx`);
* the server-side Claim Service diff-and-log update, modelled from the
  specification (its implementation, backend `routes/claims`, is not among
  the provided sources).

JavaScript runtime values that flow through these functions are modelled by
`JValue` (null, number, string); JavaScript objects by association lists
with string keys (`Obj`).  `Date` parsing is modelled for the string inputs
the UI sends, assuming a UTC runtime (so `toISOString` does not shift the
calendar day) and without calendar roll-over.
-/

/-- A JavaScript value as it appears in a claim payload: `null`,
a (finite) number, or a string.  An absent key plays the role of
`undefined`. -/
inductive JValue where
  | vNull : JValue
  | vNum : ℚ → JValue
  | vStr : String → JValue
deriving DecidableEq, Repr

/-- A JavaScript object: an association list from string keys to values.
`getKey` returns the first binding, matching unique-key JS objects. -/
abbrev Obj : Type := List (String × JValue)

/-- Property read `o[k]`: `none` models `undefined`. -/
def getKey : Obj → String → Option JValue
  | [], _ => none
  | kv :: rest, k => if kv.1 = k then some kv.2 else getKey rest k

/-- Property write `o[k] = v`: replaces the first binding of `k`, or
appends one. -/
def setKey : Obj → String → JValue → Obj
  | [], k, v => [(k, v)]
  | kv :: rest, k, v => if kv.1 = k then (k, v) :: rest else kv :: setKey rest k v

/-- Property delete `delete o[k]`. -/
def delKey (o : Obj) (k : String) : Obj :=
  List.filter (fun kv => decide (kv.1 ≠ k)) o

/-- Object spread `{...o, ...p}`: bindings of `p` override those of `o`. -/
def mergeObj (o p : Obj) : Obj :=
  p.foldl (fun acc kv => setKey acc kv.1 kv.2) o

/-! ## `parseFloat` model

JavaScript `parseFloat` skips leading whitespace and reads the longest
numeric prefix (optional sign, digits, optional decimal point and fraction
digits); it is NaN exactly when no digit is read.  Exponents are not
needed by any claim and are not modelled. -/

/-- Value of a digit string read in base 10. -/
def digitsVal (l : List Char) : ℕ :=
  l.foldl (fun a c => 10 * a + (c.toNat - 48)) 0

/-- Unsigned numeric prefix: digits, optionally followed by a point and
fraction digits; at least one digit overall. -/
def parseUnsigned (cs : List Char) : Option ℚ :=
  let intPart := cs.takeWhile Char.isDigit
  let rest := cs.drop intPart.length
  match rest with
  | '.' :: rest2 =>
    let fracPart := rest2.takeWhile Char.isDigit
    if intPart.isEmpty ∧ fracPart.isEmpty then none
    else some (mkRat (digitsVal intPart * 10 ^ fracPart.length + digitsVal fracPart)
      (10 ^ fracPart.length))
  | _ => if intPart.isEmpty then none else some (digitsVal intPart)

/-- Model of JS `parseFloat` on a string, `none` standing for NaN. -/
def parseFloatM (s : String) : Option ℚ :=
  let cs := s.data.dropWhile fun c => c = ' ' ∨ c = '\t' ∨ c = '\n' ∨ c = '\r'
  match cs with
  | '-' :: rest => (parseUnsigned rest).map (fun q => -q)
  | '+' :: rest => parseUnsigned rest
  | _ => parseUnsigned cs

/-! ## The `updateClaim` payload sanitation (claimService `updateClaim`) -/

/-- The numeric field list of the API client `updateClaim`. -/
def numericFields : List String :=
  ["charge_amt", "allowed_amt", "allowed_add_amt", "allowed_exp_amt",
   "total_amt", "charges_adj_amt", "write_off_amt", "bal_amt", "reimb_pct",
   "prim_amt", "prim_chk_amt", "sec_amt", "sec_chk_amt", "pat_amt"]

/-- The date field list of the API client `updateClaim` (and of the
`ClaimProvider` helper `formatDateFields`). -/
def dateFields : List String :=
  ["charge_dt", "prim_post_dt", "prim_recv_dt",
   "sec_post_dt", "sec_recv_dt", "pat_recv_dt"]

/-- The legacy field list deleted by the API client `updateClaim`. -/
def legacyFields : List String :=
  ["checkNumber", "amount", "status", "updatedAt", "createdAt"]

/-- Per-value numeric coercion of `updateClaim`: an empty string becomes
`null`; otherwise `parseFloat` is tried and, when it yields a number, that
number replaces the value (a number re-parses to itself). -/
def numSanitize (v : JValue) : JValue :=
  match v with
  | JValue.vNull => JValue.vNull
  | JValue.vNum q => JValue.vNum q
  | JValue.vStr s =>
    if s = "" then JValue.vNull
    else
      match parseFloatM s with
      | some q => JValue.vNum q
      | none => JValue.vStr s

/-- The numeric-field loop body: present, non-null values are coerced. -/
def coerceNumField (o : Obj) (f : String) : Obj :=
  match getKey o f with
  | none => o
  | some JValue.vNull => o
  | some v => setKey o f (numSanitize v)

/-! ## Date model

`formatDateValue` (claimService) first tests the canonical `YYYY-MM-DD`
shape with a regular expression, and otherwise tries `new Date(value)`.
`Date` parsing is modelled for the string forms the UI sends: the
canonical ISO form and the locale `M/D/YYYY` form; the runtime is taken to
be UTC (so `toISOString().split('T')[0]` does not shift the calendar day)
and calendar roll-over is not modelled (day validity is approximated by
`1..31`).  Non-string inputs are modelled as unparseable. -/

/-- The regular expression test of `formatDateValue`: ten characters, four
digits, a dash, two digits, a dash, two digits. -/
def isCanonicalDate (s : String) : Bool :=
  match s.data with
  | [c1, c2, c3, c4, c5, c6, c7, c8, c9, c10] =>
    c1.isDigit && c2.isDigit && c3.isDigit && c4.isDigit && (c5 == '-') &&
    c6.isDigit && c7.isDigit && (c8 == '-') && c9.isDigit && c10.isDigit
  | _ => false

/-- Split a character list at every occurrence of a separator. -/
def splitOnChar (sep : Char) (cs : List Char) : List (List Char) :=
  match cs with
  | [] => [[]]
  | c :: rest =>
    match splitOnChar sep rest with
    | [] => [[]]
    | h :: t => if c = sep then [] :: h :: t else (c :: h) :: t

/-- Read a nonempty all-digit character list as a natural number. -/
def parseNatDigits (cs : List Char) : Option ℕ :=
  if cs ≠ [] ∧ cs.all Char.isDigit then some (digitsVal cs) else none

/-- Model of `new Date(s)` on a locale `M/D/YYYY` string, as
year/month/day. -/
def jsParseDate (s : String) : Option (ℕ × ℕ × ℕ) :=
  match splitOnChar '/' s.data with
  | [ms, ds, ys] =>
    match parseNatDigits ms, parseNatDigits ds, parseNatDigits ys with
    | some m, some d, some y =>
      if 1 ≤ m ∧ m ≤ 12 ∧ 1 ≤ d ∧ d ≤ 31 then some (y, m, d) else none
    | _, _, _ => none
  | _ => none

/-- Model of `new Date(s)` on a canonical `YYYY-MM-DD` string. -/
def parseCanonicalDate (s : String) : Option (ℕ × ℕ × ℕ) :=
  match splitOnChar '-' s.data with
  | [ys, ms, ds] =>
    match parseNatDigits ys, parseNatDigits ms, parseNatDigits ds with
    | some y, some m, some d =>
      if 1 ≤ m ∧ m ≤ 12 ∧ 1 ≤ d ∧ d ≤ 31 then some (y, m, d) else none
    | _, _, _ => none
  | _ => none

/-- Left-pad a number to two digits. -/
def pad2 (n : ℕ) : String :=
  if n < 10 then "0" ++ toString n else toString n

/-- Left-pad a number to four digits. -/
def pad4 (n : ℕ) : String :=
  if n < 10 then "000" ++ toString n
  else if n < 100 then "00" ++ toString n
  else if n < 1000 then "0" ++ toString n
  else toString n

/-- Rendering `toISOString().split('T')[0]` of a valid date. -/
def toISODateString (y m d : ℕ) : String :=
  pad4 y ++ "-" ++ pad2 m ++ "-" ++ pad2 d

/-- JS truthiness on the modelled values (`null`, `0`, and the empty
string are falsy). -/
def jsFalsy (v : JValue) : Bool :=
  match v with
  | JValue.vNull => true
  | JValue.vNum q => q == 0
  | JValue.vStr s => s == ""

/-- The `formatDateValue` helper of the API client (claimService): falsy values pass
through; a canonical `YYYY-MM-DD` string passes through unchanged; another
string is parsed as a date and, when valid, replaced by its
`YYYY-MM-DD` form; anything else is returned as-is. -/
def formatDateValue (v : JValue) : JValue :=
  if jsFalsy v then v
  else
    match v with
    | JValue.vStr s =>
      if isCanonicalDate s then JValue.vStr s
      else
        match jsParseDate s with
        | some (y, m, d) => JValue.vStr (toISODateString y m d)
        | none => JValue.vStr s
    | w => w

/-- Per-value date handling of the `updateClaim` date-field loop: `null`
or the empty string become `null`; everything else goes through
`formatDateValue`. -/
def dateSanitize (v : JValue) : JValue :=
  if v = JValue.vNull ∨ v = JValue.vStr "" then JValue.vNull
  else formatDateValue v

/-- The date-field loop body of `updateClaim`: fields present in the
payload (not `undefined`) are sanitized. -/
def coerceDateField (o : Obj) (f : String) : Obj :=
  match getKey o f with
  | none => o
  | some v => setKey o f (dateSanitize v)

/-- The full payload sanitation of the API client `updateClaim`
(claimService): numeric coercion over `numericFields`, then date
normalization over `dateFields`, then deletion of `legacyFields`. -/
def sanitizePayload (p : Obj) : Obj :=
  List.foldl delKey
    (List.foldl coerceDateField (List.foldl coerceNumField p numericFields) dateFields)
    legacyFields

/-! ## The `updateClaim` retry loop (claimService)

The source wraps the PUT in a `try`/`catch`; the `catch` block — reached
for any axios error, including non-2xx responses such as 400 and 404 as
well as timeouts, connection resets, and 5xx — waits 1500 ms and recurses
with `retries - 1` while `retries > 0`, and otherwise returns a
`success: false` result carrying the error message. -/

/-- The kinds of failures an update attempt can produce, with axios-style
messages. -/
inductive ErrKind where
  | timeout : ErrKind
  | connReset : ErrKind
  | http500 : ErrKind
  | http404 : ErrKind
  | http400 : ErrKind
deriving DecidableEq, Repr

/-- The axios error message for each failure kind. -/
def errMessage : ErrKind → String
  | ErrKind.timeout => "timeout of 15000ms exceeded"
  | ErrKind.connReset => "Network Error"
  | ErrKind.http500 => "Request failed with status code 500"
  | ErrKind.http404 => "Request failed with status code 404"
  | ErrKind.http400 => "Request failed with status code 400"

/-- Outcome of one PUT attempt: a 2xx response with the server row, or a
thrown error. -/
inductive Attempt where
  | succ : Obj → Attempt
  | err : ErrKind → Attempt
deriving DecidableEq

/-- Result of `updateClaim`: the parsed response data, or the
`success: false` object built in the `catch` block, carrying the error
message. -/
inductive UpdResult where
  | ok : Obj → UpdResult
  | fail : String → UpdResult
deriving DecidableEq

/-- The fixed delay before each retry, in milliseconds. -/
def retryDelayMs : ℕ := 1500

/-- The `updateClaim` retry loop over a sequence of attempt outcomes supplied
by the environment: the first outcome is the current attempt; on error the
call recurses with one fewer retry while any remain. -/
def updateClaimRetry : List Attempt → ℕ → UpdResult
  | [], _ => UpdResult.fail "Network error"
  | Attempt.succ d :: _, _ => UpdResult.ok d
  | Attempt.err _ :: rest, r + 1 => updateClaimRetry rest r
  | Attempt.err k :: _, 0 => UpdResult.fail (errMessage k)

/-- Number of PUT attempts `updateClaimRetry` issues. -/
def attemptsUsed : List Attempt → ℕ → ℕ
  | [], _ => 1
  | Attempt.succ _ :: _, _ => 1
  | Attempt.err _ :: rest, r + 1 => 1 + attemptsUsed rest r
  | Attempt.err _ :: _, 0 => 1

/-- Total milliseconds spent waiting between attempts. -/
def delayUsed : List Attempt → ℕ → ℕ
  | [], _ => 0
  | Attempt.succ _ :: _, _ => 0
  | Attempt.err _ :: rest, r + 1 => retryDelayMs + delayUsed rest r
  | Attempt.err _ :: _, 0 => 0

/-! ## The `ClaimProvider` state manager (`AuthContext.tsx`, ClaimContext part)

The `updateClaim` callback of `ClaimProvider` is modelled as a function of
the pre-state, the partial update, and the two environment responses (the
PUT result and the rollback re-fetch result).  The `isLoading` flag, set
`true` on entry and reset in `finally`, is net unchanged and not carried.
`mapApiClaimToVisitClaim` (a pure per-field reshaping of the server row
into the internal claim shape, `AuthContext.tsx` ll. 104–173) is taken as
a parameter `mapApi` of the flow: none of the reconciliation claims depend
on its internals. -/

/-- The authenticated user as read by `ClaimProvider` (`user?.id`,
`user?.name`). -/
structure UserInfo where
  uid : String
  uname : String
deriving DecidableEq

/-- A `{success, data, message}` response as consumed by the manager
(`data: null` is `none`). -/
structure ApiResp where
  success : Bool
  data : Option Obj
  message : Option String
deriving DecidableEq

/-- The manager's local state: claims list, search results, current
claim, error message. -/
structure MgrState where
  claims : List Obj
  searchResults : List Obj
  currentClaim : Option Obj
  error : Option String
deriving DecidableEq

/-- Everything observable about one run of the manager's `updateClaim`:
the state right after the optimistic writes (before the PUT settles), the
final state, the payload handed to the API client (`none` when no request
was issued), and the promise outcome. -/
structure UpdOutcome where
  optimistic : MgrState
  final : MgrState
  sent : Option Obj
  result : Except String Obj

/-- Model of `list.map(c => c.id === idv ? repl : c)`. -/
def replaceById (l : List Obj) (idv : Option JValue) (repl : Obj) : List Obj :=
  l.map fun c => if getKey c "id" = idv then repl else c

/-- Model of `user?.id || 1`. -/
def jsUserId (user : Option UserInfo) : JValue :=
  match user with
  | some u => if u.uid = "" then JValue.vNum 1 else JValue.vStr u.uid
  | none => JValue.vNum 1

/-- Model of `user?.name || 'System'`. -/
def jsUsername (user : Option UserInfo) : JValue :=
  match user with
  | some u => if u.uname = "" then JValue.vStr "System" else JValue.vStr u.uname
  | none => JValue.vStr "System"

/-- Model of `m || dflt` on an optional string. -/
def jsOrString (m : Option String) (dflt : String) : String :=
  match m with
  | some s => if s = "" then dflt else s
  | none => dflt

/-- The `formatDateFields` helper of `ClaimProvider`: truthy date-field
values are re-parsed with `new Date` and, when valid, replaced by their
`YYYY-MM-DD` form; invalid ones are left as-is. -/
def jsNewDate (v : JValue) : Option (ℕ × ℕ × ℕ) :=
  match v with
  | JValue.vStr s => if isCanonicalDate s then parseCanonicalDate s else jsParseDate s
  | _ => none

/-- One field of `formatDateFields`. -/
def ctxFormatDateField (o : Obj) (f : String) : Obj :=
  match getKey o f with
  | none => o
  | some v =>
    if jsFalsy v then o
    else
      match jsNewDate v with
      | some (y, m, d) => setKey o f (JValue.vStr (toISODateString y m d))
      | none => o

/-- The `formatDateFields` helper over the six date fields. -/
def ctxFormatDateFields (o : Obj) : Obj :=
  dateFields.foldl ctxFormatDateField o

/-- The `updateClaim` callback of `ClaimProvider` (`AuthContext.tsx`
ll. 327–424): throw when no current claim is selected; otherwise format
dates, apply the optimistic merge to the current claim and both lists,
issue the PUT (outcome `resp`), and reconcile — on success replace local
state with the mapped server row; on failure set the error, re-fetch the
claim (outcome `refetch`) and roll back to the re-fetched row when that
succeeds, and rethrow. -/
def updateClaimMgr (mapApi : Obj → Obj) (user : Option UserInfo) (st : MgrState)
    (upd : Obj) (resp refetch : ApiResp) : UpdOutcome :=
  match st.currentClaim with
  | none =>
    let msg := "No current claim selected to update"
    { optimistic := { st with error := none }
      final := { st with error := some msg }
      sent := none
      result := Except.error msg }
  | some cur =>
    let formatted := ctxFormatDateFields upd
    let sentPayload :=
      setKey (setKey formatted "user_id" (jsUserId user)) "username" (jsUsername user)
    let optimisticClaim := mergeObj cur formatted
    let curId := getKey cur "id"
    let stOpt : MgrState :=
      { claims := replaceById st.claims curId optimisticClaim
        searchResults := replaceById st.searchResults curId optimisticClaim
        currentClaim := some optimisticClaim
        error := none }
    match resp.success, resp.data with
    | true, some d =>
      let mapped := mapApi d
      let mId := getKey mapped "id"
      { optimistic := stOpt
        final :=
          { claims := replaceById stOpt.claims mId mapped
            searchResults := replaceById stOpt.searchResults mId mapped
            currentClaim := some mapped
            error := none }
        sent := some sentPayload
        result := Except.ok mapped }
    | _, _ =>
      let errMsg := jsOrString resp.message "Failed to update claim in database"
      match refetch.success, refetch.data with
      | true, some d1 =>
        let orig := mapApi d1
        { optimistic := stOpt
          final :=
            { claims := replaceById stOpt.claims curId orig
              searchResults := replaceById stOpt.searchResults curId orig
              currentClaim := some orig
              error := some errMsg }
          sent := some sentPayload
          result := Except.error errMsg }
      | _, _ =>
        { optimistic := stOpt
          final := { stOpt with error := some errMsg }
          sent := some sentPayload
          result := Except.error errMsg }

/-! ## The `HistorySection` load/render logic -/

/-- The `HistorySection` component state touched by `loadHistory`. -/
structure HistState where
  history : List Obj
  error : Option String
deriving DecidableEq

/-- Does the second list start with the first? -/
def listStartsWith : List Char → List Char → Bool
  | [], _ => true
  | _ :: _, [] => false
  | p :: ps, c :: cs => p == c && listStartsWith ps cs

/-- Does the second list contain the first as a contiguous run? -/
def listContainsSub (pat cs : List Char) : Bool :=
  match cs with
  | [] => pat.isEmpty
  | _ :: rest => listStartsWith pat cs || listContainsSub pat rest

/-- JS `String.prototype.includes`: substring test. -/
def jsIncludes (s pat : String) : Bool :=
  listContainsSub pat.data s.data

/-- A `{success, data, message}` history response; the claimService
`fetchClaimHistory` catch-all returns `data: []`, so `data` is a list. -/
structure HistResp where
  success : Bool
  data : List Obj
  message : Option String
deriving DecidableEq

/-- One non-cached, mounted run of `loadHistory` over the fetch response:
on success the entries are stored and no error is set (the initial
`setError(null)` stands); on failure the history is cleared and an error
is set only when the message indicates a 500 or a network error. -/
def loadHistoryResult (resp : HistResp) : HistState :=
  if resp.success then { history := resp.data, error := none }
  else
    { history := []
      error :=
        match resp.message with
        | some m =>
          if jsIncludes m "status code 500" then
            some "Unable to load history right now. Please try again later."
          else if jsIncludes m "Network Error" then
            some "Network error. Please check your connection and try again."
          else none
        | none => none }

/-- What the expanded history panel renders. -/
inductive HistRender where
  | loading : HistRender
  | errorBanner : String → HistRender
  | emptyState : HistRender
  | entries : List Obj → HistRender
deriving DecidableEq

/-- The non-error body: empty state or the entry list. -/
def histBody (st : HistState) : HistRender :=
  if st.history.isEmpty then HistRender.emptyState else HistRender.entries st.history

/-- The render decision of `HistorySection` (`isLoading ? spinner : error
? banner : history.length === 0 ? empty state : entry list`); a truthiness
test guards the error branch. -/
def renderHistory (isLoading : Bool) (st : HistState) : HistRender :=
  if isLoading then HistRender.loading
  else
    match st.error with
    | some m => if m = "" then histBody st else HistRender.errorBanner m
    | none => histBody st

/-! ## The Claim Service update (server side) -/

/-- Modelled from the spec: a change-log entry as the Claim Service writes
it — claim field name, old and new value (text or null; `none` here is the
stored null), and the acting user.  The backend implementation
(`routes/claims`) is not among the provided sources; the shape follows
spec §3 (ChangeLogEntry) and §4.1. -/
structure ChangeEntry where
  field_name : String
  old_value : Option JValue
  new_value : JValue
  user_id : JValue
  username : JValue
deriving DecidableEq

/-- Modelled from the spec (§4.1, backend `routes/claims` not in the
sources): the fields of the normalized request whose incoming value
differs from the stored one. -/
def changedFields (stored req : Obj) : Obj :=
  List.filter (fun kv => decide (¬getKey stored kv.1 = some kv.2)) req

/-- Modelled from the spec (§4.1): one change-log entry per changed field,
with the stored value as old value, the incoming value as new value, and
the acting user. -/
def changeLogEntries (stored req : Obj) (uid uname : JValue) : List ChangeEntry :=
  (changedFields stored req).map fun kv =>
    { field_name := kv.1
      old_value := getKey stored kv.1
      new_value := kv.2
      user_id := uid
      username := uname }

/-- Modelled from the spec (§4.1): the diff-and-log step of the Claim
Service update — the request here is the already-normalized partial
record; the result is the updated row and the change-log entries to
insert. -/
def serviceUpdate (stored req : Obj) (uid uname : JValue) : Obj × List ChangeEntry :=
  (mergeObj stored req, changeLogEntries stored req uid uname)

/-- The Claim Service error taxonomy (spec §4.1/§7). -/
inductive SvcError where
  | notFound : SvcError
  | validation : SvcError
  | persistence : SvcError
deriving DecidableEq

/-- Modelled from the spec: the claim row and change-log table the
transaction touches. -/
structure Store where
  row : Obj
  log : List ChangeEntry
deriving DecidableEq

/-- Modelled from the spec (§4.1, §5): the update transaction — on a
storage failure nothing commits (`PersistenceError`, store unchanged);
otherwise the row update and all change-log inserts commit together. -/
def serviceUpdateTx (db : Store) (req : Obj) (uid uname : JValue)
    (storageFailure : Bool) : Store × Except SvcError Obj :=
  if storageFailure then (db, Except.error SvcError.persistence)
  else
    let r := serviceUpdate db.row req uid uname
    ({ row := r.1, log := db.log ++ r.2 }, Except.ok r.1)

/-! ## Concrete rows used by witnesses and counterexamples -/

/-- A concrete pre-update claim row. -/
def wCur : Obj := [("id", JValue.vNum 1), ("claim_status", JValue.vStr "Pending")]

/-- A concrete partial update touching one field. -/
def wUpd : Obj := [("claim_status", JValue.vStr "Insurance Paid")]

/-- A concrete server response row for the update. -/
def wServerRow : Obj :=
  [("id", JValue.vNum 1), ("claim_status", JValue.vStr "Insurance Paid"),
   ("charge_dt", JValue.vStr "2025-03-04")]

/-- A concrete manager state holding `wCur` everywhere. -/
def wState : MgrState :=
  { claims := [wCur], searchResults := [wCur], currentClaim := some wCur, error := none }

/-- A concrete stored row for the Claim Service model. -/
def wStored : Obj :=
  [("charge_amt", JValue.vNum 150), ("claim_status", JValue.vStr "Pending")]

/-- A concrete update request: clears `charge_amt`, repeats the stored
`claim_status`. -/
def wReq : Obj := [("charge_amt", JValue.vNull), ("claim_status", JValue.vStr "Pending")]

theorem getKey_setKey_self (o : Obj) (k : String) (v : JValue) :
    getKey (setKey o k v) k = some v := by
  induction o with
  | nil => simp [setKey, getKey]
  | cons kv rest ih =>
    by_cases h : kv.1 = k
    · simp [setKey, h, getKey]
    · simp [setKey, h, getKey, ih]

theorem getKey_setKey_ne (o : Obj) (k k' : String) (v : JValue) (h : k ≠ k') :
    getKey (setKey o k v) k' = getKey o k' := by
  induction o with
  | nil => simp [setKey, getKey, h]
  | cons kv rest ih =>
    by_cases hk : kv.1 = k
    · simp [setKey, hk, getKey, h]
    · by_cases hk' : kv.1 = k'
      · simp [setKey, hk, getKey, hk', Ne.symm h]
      · simp [setKey, hk, getKey, hk', ih]

theorem getKey_delKey (o : Obj) (k k' : String) :
    getKey (delKey o k) k' = if k = k' then none else getKey o k' := by
  induction o with
  | nil => simp [delKey, getKey]
  | cons kv rest ih =>
    by_cases hk : kv.1 = k
    · by_cases he : k = k'
      · simp [delKey, List.filter, hk, getKey, he] at ih ⊢
        simpa [he] using ih
      · simp [delKey, List.filter, hk, getKey, he, hk ▸ he] at ih ⊢
        simp [ih, he]
    · by_cases he : kv.1 = k'
      · have hne : ¬k = k' := fun hh => hk (hh ▸ he.symm ▸ rfl)
        have hne2 : ¬k' = k := fun hh => hne hh.symm
        simp [delKey, List.filter, hk, getKey, he, hne, hne2]
      · simp [delKey, List.filter, hk, getKey, he] at ih ⊢
        exact ih

/-! ## Generic lemmas about folding per-field transforms over a field list -/

theorem getKey_foldl_of_not_mem (step : Obj → String → Obj)
    (hstep : ∀ o g k, g ≠ k → getKey (step o g) k = getKey o k)
    (l : List String) (o : Obj) (f : String) (hf : f ∉ l) :
    getKey (List.foldl step o l) f = getKey o f := by
  induction l generalizing o with
  | nil => rfl
  | cons g t ih =>
    have hgf : g ≠ f := fun h => hf (h ▸ List.mem_cons_self g t)
    have hft : f ∉ t := fun h => hf (List.mem_cons_of_mem g h)
    simp only [List.foldl_cons]
    rw [ih (step o g) hft, hstep o g f hgf]

theorem getKey_foldl_of_mem (step : Obj → String → Obj) (valFn : JValue → JValue)
    (hne : ∀ o g k, g ≠ k → getKey (step o g) k = getKey o k)
    (hself : ∀ o g, getKey (step o g) g = (getKey o g).map valFn)
    (l : List String) (o : Obj) (f : String) (hf : f ∈ l) (hnd : l.Nodup) :
    getKey (List.foldl step o l) f = (getKey o f).map valFn := by
  induction l generalizing o with
  | nil => cases hf
  | cons g t ih =>
    have hgt : g ∉ t := (List.nodup_cons.mp hnd).1
    have htnd : t.Nodup := (List.nodup_cons.mp hnd).2
    simp only [List.foldl_cons]
    rcases List.mem_cons.mp hf with hfg | hft
    · rw [hfg]
      rw [getKey_foldl_of_not_mem step hne t (step o g) g hgt, hself o g]
    · by_cases hgf : g = f
      · subst hgf; exact absurd hft hgt
      · rw [ih (step o g) hft htnd, hne o g f hgf]

theorem getKey_foldl_delKey (l : List String) (o : Obj) (f : String) :
    getKey (List.foldl delKey o l) f = if f ∈ l then none else getKey o f := by
  induction l generalizing o with
  | nil => simp
  | cons g t ih =>
    simp only [List.foldl_cons]
    rw [ih (delKey o g)]
    by_cases hft : f ∈ t
    · simp [hft]
    · by_cases hgf : g = f
      · subst hgf; simp [hft, getKey_delKey]
      · have hfg : ¬f = g := fun h => hgf h.symm
        simp [hft, hgf, hfg, getKey_delKey, List.mem_cons]

theorem getKey_coerceNumField_ne (o : Obj) (g k : String) (h : g ≠ k) :
    getKey (coerceNumField o g) k = getKey o k := by
  unfold coerceNumField
  cases hg : getKey o g with
  | none => rfl
  | some v => cases v <;> simp [getKey_setKey_ne o g k _ h]

theorem getKey_coerceNumField_self (o : Obj) (g : String) :
    getKey (coerceNumField o g) g = (getKey o g).map numSanitize := by
  unfold coerceNumField
  cases hg : getKey o g with
  | none => simp [hg]
  | some v => cases v <;> simp [hg, getKey_setKey_self, numSanitize]

theorem getKey_coerceDateField_ne (o : Obj) (g k : String) (h : g ≠ k) :
    getKey (coerceDateField o g) k = getKey o k := by
  unfold coerceDateField
  cases hg : getKey o g with
  | none => rfl
  | some v => simp [getKey_setKey_ne o g k _ h]

theorem getKey_coerceDateField_self (o : Obj) (g : String) :
    getKey (coerceDateField o g) g = (getKey o g).map dateSanitize := by
  unfold coerceDateField
  cases hg : getKey o g with
  | none => simp [hg]
  | some v => simp [hg, getKey_setKey_self]

theorem numericFields_nodup : numericFields.Nodup := by decide

theorem dateFields_nodup : dateFields.Nodup := by decide

theorem numericFields_not_date : ∀ f ∈ numericFields, f ∉ dateFields := by decide

theorem numericFields_not_legacy : ∀ f ∈ numericFields, f ∉ legacyFields := by decide

theorem dateFields_not_legacy : ∀ f ∈ dateFields, f ∉ legacyFields := by decide

/-- Characterization of the sanitized payload, key by key. -/
theorem getKey_sanitizePayload (p : Obj) (f : String) :
    getKey (sanitizePayload p) f =
      if f ∈ legacyFields then none
      else if f ∈ numericFields then (getKey p f).map numSanitize
      else if f ∈ dateFields then (getKey p f).map dateSanitize
      else getKey p f := by
  unfold sanitizePayload
  rw [getKey_foldl_delKey]
  by_cases hl : f ∈ legacyFields
  · simp [hl]
  · simp only [hl, if_false]
    by_cases hn : f ∈ numericFields
    · have hd : f ∉ dateFields := numericFields_not_date f hn
      rw [getKey_foldl_of_not_mem coerceDateField getKey_coerceDateField_ne dateFields _ f hd,
        getKey_foldl_of_mem coerceNumField numSanitize getKey_coerceNumField_ne
          getKey_coerceNumField_self numericFields p f hn numericFields_nodup]
      simp [hn]
    · simp only [hn, if_false]
      by_cases hd : f ∈ dateFields
      · rw [getKey_foldl_of_mem coerceDateField dateSanitize getKey_coerceDateField_ne
          getKey_coerceDateField_self dateFields _ f hd dateFields_nodup,
          getKey_foldl_of_not_mem coerceNumField getKey_coerceNumField_ne numericFields p f hn]
        simp [hd]
      · rw [getKey_foldl_of_not_mem coerceDateField getKey_coerceDateField_ne dateFields _ f hd,
          getKey_foldl_of_not_mem coerceNumField getKey_coerceNumField_ne numericFields p f hn]
        simp [hd]

theorem assoc_val_eq_of_nodup_keys {l : List (String × JValue)}
    (hnd : (l.map Prod.fst).Nodup) {a : String} {b c : JValue}
    (hb : (a, b) ∈ l) (hc : (a, c) ∈ l) : b = c := by
  induction l with
  | nil => cases hb
  | cons kv t ih =>
    simp only [List.map_cons, List.nodup_cons] at hnd
    rcases List.mem_cons.mp hb with hb1 | hb2
    · rcases List.mem_cons.mp hc with hc1 | hc2
      · rw [← hb1] at hc1
        exact (Prod.ext_iff.mp hc1).2.symm
      · exfalso
        apply hnd.1
        rw [← hb1]
        simpa using List.mem_map_of_mem Prod.fst hc2
    · rcases List.mem_cons.mp hc with hc1 | hc2
      · exfalso
        apply hnd.1
        rw [← hc1]
        simpa using List.mem_map_of_mem Prod.fst hb2
      · exact ih hnd.2 hb2 hc2

/-- C1: a Claim Service update request changing N field values creates
exactly N change-log entries — one per changed field, each carrying the
stored old value, the incoming new value and the acting user; a request
field whose stored value is unchanged produces no entry (for a
unique-key request), and a request all of whose fields match the stored
row produces zero entries. -/
theorem claim_service_change_log_per_field (stored req : Obj) (uid uname : JValue) :
    (serviceUpdate stored req uid uname).2.length = (changedFields stored req).length ∧
    (∀ e ∈ (serviceUpdate stored req uid uname).2,
      e.old_value = getKey stored e.field_name ∧
      getKey stored e.field_name ≠ some e.new_value ∧
      (e.field_name, e.new_value) ∈ req ∧
      e.user_id = uid ∧ e.username = uname) ∧
    ((req.map Prod.fst).Nodup →
      ∀ kv ∈ req, getKey stored kv.1 = some kv.2 →
        ∀ e ∈ (serviceUpdate stored req uid uname).2, e.field_name ≠ kv.1) ∧
    ((∀ kv ∈ req, getKey stored kv.1 = some kv.2) →
      (serviceUpdate stored req uid uname).2 = []) := by
  refine ⟨by simp [serviceUpdate, changeLogEntries], ?_, ?_, ?_⟩
  · intro e he
    simp only [serviceUpdate, changeLogEntries, changedFields, List.mem_map,
      List.mem_filter, decide_eq_true_eq] at he
    obtain ⟨kv, ⟨hmem, hch⟩, rfl⟩ := he
    exact ⟨rfl, hch, hmem, rfl, rfl⟩
  · intro hnd kv hmem hunch e he hfe
    simp only [serviceUpdate, changeLogEntries, changedFields, List.mem_map,
      List.mem_filter, decide_eq_true_eq] at he
    obtain ⟨kv', ⟨hmem', hch'⟩, rfl⟩ := he
    obtain ⟨k, v⟩ := kv
    obtain ⟨k', v'⟩ := kv'
    simp only at hfe hunch hch'
    subst hfe
    have hv : v' = v := assoc_val_eq_of_nodup_keys hnd hmem' hmem
    rw [hv] at hch'
    exact hch' hunch
  · intro hall
    simp only [serviceUpdate, changeLogEntries, changedFields, List.map_eq_nil_iff]
    rw [List.filter_eq_nil_iff]
    intro kv hkv
    simpa using hall kv hkv

/-- C1 witness: updating `{charge_amt: 150, claim_status: "Pending"}` with
`{charge_amt: null, claim_status: "Pending"}` logs exactly the
`charge_amt` transition; submitting the stored data itself logs
nothing. -/
theorem claim_service_change_log_per_field_witness :
    (serviceUpdate wStored wReq (JValue.vNum 1) (JValue.vStr "System")).2 =
      [{ field_name := "charge_amt", old_value := some (JValue.vNum 150),
         new_value := JValue.vNull, user_id := JValue.vNum 1,
         username := JValue.vStr "System" }] ∧
    (serviceUpdate wStored wStored (JValue.vNum 1) (JValue.vStr "System")).2 = [] := by
  constructor
  · rfl
  · exact (claim_service_change_log_per_field wStored wStored (JValue.vNum 1)
      (JValue.vStr "System")).2.2.2 (by decide)

/-- C2: the Claim Service update transaction is atomic — on a storage
failure the claim row and the change-log table are both unchanged and a
`PersistenceError` is returned; without one, the row update and all the
change-log inserts commit together. -/
theorem claim_service_update_atomic (db : Store) (req : Obj) (uid uname : JValue) :
    ((serviceUpdateTx db req uid uname true).1 = db ∧
      (serviceUpdateTx db req uid uname true).2 = Except.error SvcError.persistence) ∧
    ((serviceUpdateTx db req uid uname false).1.row = mergeObj db.row req ∧
      (serviceUpdateTx db req uid uname false).1.log =
        db.log ++ changeLogEntries db.row req uid uname) := by
  refine ⟨⟨rfl, rfl⟩, rfl, rfl⟩

theorem dateFields_not_numeric : ∀ f ∈ dateFields, f ∉ numericFields := by decide

theorem numSanitize_ne_emptyStr (v : JValue) : numSanitize v ≠ JValue.vStr "" := by
  cases v with
  | vNull => simp [numSanitize]
  | vNum q => simp [numSanitize]
  | vStr s =>
    by_cases hs : s = ""
    · simp [numSanitize, hs]
    · cases hp : parseFloatM s <;> simp [numSanitize, hs, hp]

theorem parseFloatM_empty : parseFloatM "" = none := by decide

/-- C3: for every canonical numeric field of the update payload, the
sanitized value the client puts on the wire is `null` for an empty-string
input (never `0`), the parsed number for a string `parseFloat` accepts,
and in no case the empty string. -/
theorem numeric_field_wire_values (p : Obj) (f : String) (hf : f ∈ numericFields) :
    (getKey p f = some (JValue.vStr "") →
      getKey (sanitizePayload p) f = some JValue.vNull ∧
      getKey (sanitizePayload p) f ≠ some (JValue.vNum 0)) ∧
    (∀ s q, getKey p f = some (JValue.vStr s) → parseFloatM s = some q →
      getKey (sanitizePayload p) f = some (JValue.vNum q)) ∧
    getKey (sanitizePayload p) f ≠ some (JValue.vStr "") := by
  have hl : f ∉ legacyFields := numericFields_not_legacy f hf
  have hkey : getKey (sanitizePayload p) f = (getKey p f).map numSanitize := by
    rw [getKey_sanitizePayload]
    simp [hf, hl]
  refine ⟨?_, ?_, ?_⟩
  · intro h
    rw [hkey, h]
    constructor
    · simp [numSanitize]
    · simp [numSanitize]
  · intro s q h hq
    have hs : ¬s = "" := by
      intro he
      subst he
      rw [parseFloatM_empty] at hq
      cases hq
    rw [hkey, h]
    simp [numSanitize, hs, hq]
  · rw [hkey]
    cases hx : getKey p f with
    | none => simp
    | some v => simpa using numSanitize_ne_emptyStr v

/-- C3 witness: an empty-string `charge_amt` goes to the wire as `null`;
the numeric string `"150.00"` goes as the number `150`. -/
theorem numeric_field_wire_values_witness :
    getKey (sanitizePayload [(("charge_amt" : String), JValue.vStr "")]) "charge_amt" =
      some JValue.vNull ∧
    getKey (sanitizePayload [(("charge_amt" : String), JValue.vStr "150.00")]) "charge_amt" =
      some (JValue.vNum 150) := by
  constructor
  · exact ((numeric_field_wire_values [("charge_amt", JValue.vStr "")] "charge_amt"
      (by decide)).1 rfl).1
  · exact (numeric_field_wire_values [("charge_amt", JValue.vStr "150.00")] "charge_amt"
      (by decide)).2.1 "150.00" 150 rfl (by decide)

theorem isCanonicalDate_empty : isCanonicalDate "" = false := by decide

theorem jsParseDate_empty : jsParseDate "" = none := by decide

/-- C4: `formatDateValue` is the identity on canonical `YYYY-MM-DD`
strings, maps a parseable non-canonical date string to its `YYYY-MM-DD`
form, and leaves an unparseable non-empty string as-is; through the
update payload sanitation, a date-field value that is neither `null` nor
the empty string is sent as its `formatDateValue` image. -/
theorem date_normalization_cases (s : String) :
    (isCanonicalDate s = true → formatDateValue (JValue.vStr s) = JValue.vStr s) ∧
    (∀ y m d, isCanonicalDate s = false → jsParseDate s = some (y, m, d) →
      formatDateValue (JValue.vStr s) = JValue.vStr (toISODateString y m d)) ∧
    (s ≠ "" → isCanonicalDate s = false → jsParseDate s = none →
      formatDateValue (JValue.vStr s) = JValue.vStr s) ∧
    (∀ p f, f ∈ dateFields → getKey p f = some (JValue.vStr s) → s ≠ "" →
      getKey (sanitizePayload p) f = some (formatDateValue (JValue.vStr s))) := by
  refine ⟨?_, ?_, ?_, ?_⟩
  · intro h
    have hs : ¬s = "" := by
      intro he
      subst he
      rw [isCanonicalDate_empty] at h
      cases h
    simp [formatDateValue, jsFalsy, hs, h]
  · intro y m d hc hp
    have hs : ¬s = "" := by
      intro he
      subst he
      rw [jsParseDate_empty] at hp
      cases hp
    simp [formatDateValue, jsFalsy, hs, hc, hp]
  · intro hs hc hp
    simp [formatDateValue, jsFalsy, hs, hc, hp]
  · intro p f hfd hv hs
    have hl : f ∉ legacyFields := dateFields_not_legacy f hfd
    have hn : f ∉ numericFields := dateFields_not_numeric f hfd
    rw [getKey_sanitizePayload]
    simp only [hl, hn, hfd, if_false, if_true]
    rw [hv]
    simp [dateSanitize, hs]

/-- C4 witness: a canonical date round-trips unchanged and `"3/4/2025"`
normalizes to `"2025-03-04"`, both as a bare value and through the
payload sanitation. -/
theorem date_normalization_cases_witness :
    formatDateValue (JValue.vStr "2025-03-04") = JValue.vStr "2025-03-04" ∧
    formatDateValue (JValue.vStr "3/4/2025") = JValue.vStr "2025-03-04" ∧
    getKey (sanitizePayload [(("charge_dt" : String), JValue.vStr "3/4/2025")]) "charge_dt" =
      some (JValue.vStr "2025-03-04") := by
  refine ⟨?_, ?_, ?_⟩
  · exact (date_normalization_cases "2025-03-04").1 (by decide)
  · have h := (date_normalization_cases "3/4/2025").2.1 2025 3 4 (by decide) (by decide)
    rw [h]
    decide
  · have h := (date_normalization_cases "3/4/2025").2.2.2
      [("charge_dt", JValue.vStr "3/4/2025")] "charge_dt" (by decide) rfl (by decide)
    rw [h]
    have h2 := (date_normalization_cases "3/4/2025").2.1 2025 3 4 (by decide) (by decide)
    rw [h2]
    decide

/-- C5 counterexample: a PUT attempt failing with a 404 — a NotFoundError
response — is retried: with one retry left, the retry loop goes on to the
next attempt and returns its success instead of surfacing the 404, so
NotFoundError responses are not exempt from retrying. -/
theorem retry_on_notfound_counterexample :
    updateClaimRetry
        [Attempt.err ErrKind.http404, Attempt.succ [("id", JValue.vNum 42)]] 1 =
      UpdResult.ok [("id", JValue.vNum 42)] ∧
    attemptsUsed
        [Attempt.err ErrKind.http404, Attempt.succ [("id", JValue.vNum 42)]] 1 = 2 ∧
    updateClaimRetry
        [Attempt.err ErrKind.http404, Attempt.succ [("id", JValue.vNum 42)]] 1 ≠
      UpdResult.fail (errMessage ErrKind.http404) := by
  refine ⟨rfl, rfl, ?_⟩
  intro h
  cases h

theorem attemptsUsed_pos : ∀ (l : List Attempt) (r : ℕ), 1 ≤ attemptsUsed l r := by
  intro l
  induction l with
  | nil => intro r; simp [attemptsUsed]
  | cons a t ih =>
    intro r
    cases a with
    | succ d => simp [attemptsUsed]
    | err k =>
      cases r with
      | zero => simp [attemptsUsed]
      | succ r' => simp [attemptsUsed]

/-- C5 (amended): the API client retry loop retries after every failed
attempt regardless of the failure kind — timeouts, connection resets, 5xx,
and also 400/404 responses — up to the fixed bound of `retries` extra
attempts, waiting the fixed 1500 ms before each retry; when the budget is
exhausted it surfaces the last failure, and when some attempt within the
budget succeeds it returns that success. -/
theorem retry_loop_behavior :
    (∀ d rest r, updateClaimRetry (Attempt.succ d :: rest) r = UpdResult.ok d) ∧
    (∀ k rest r, updateClaimRetry (Attempt.err k :: rest) (r + 1) = updateClaimRetry rest r) ∧
    (∀ k rest, updateClaimRetry (Attempt.err k :: rest) 0 = UpdResult.fail (errMessage k)) ∧
    (∀ l r, attemptsUsed l r ≤ r + 1) ∧
    (∀ l r, delayUsed l r = retryDelayMs * (attemptsUsed l r - 1)) ∧
    (∀ pre d rest r, (∀ a ∈ pre, ∃ k, a = Attempt.err k) → pre.length ≤ r →
      updateClaimRetry (pre ++ Attempt.succ d :: rest) r = UpdResult.ok d) := by
  refine ⟨fun d rest r => rfl, fun k rest r => rfl, fun k rest => rfl, ?_, ?_, ?_⟩
  · intro l
    induction l with
    | nil => intro r; simp [attemptsUsed]
    | cons a t ih =>
      intro r
      cases a with
      | succ d => simp [attemptsUsed]
      | err k =>
        cases r with
        | zero => simp [attemptsUsed]
        | succ r' =>
          have h := ih r'
          simp only [attemptsUsed]
          omega
  · intro l
    induction l with
    | nil => intro r; simp [delayUsed, attemptsUsed]
    | cons a t ih =>
      intro r
      cases a with
      | succ d => simp [delayUsed, attemptsUsed]
      | err k =>
        cases r with
        | zero => simp [delayUsed, attemptsUsed]
        | succ r' =>
          have h := ih r'
          have hp := attemptsUsed_pos t r'
          simp only [delayUsed, attemptsUsed, retryDelayMs] at h hp ⊢
          omega
  · intro pre
    induction pre with
    | nil =>
      intro d rest r hall hlen
      simp [updateClaimRetry]
    | cons a t ih =>
      intro d rest r hall hlen
      obtain ⟨k, rfl⟩ := hall a (List.mem_cons_self a t)
      cases r with
      | zero => simp at hlen
      | succ r' =>
        simp only [List.cons_append, updateClaimRetry]
        refine ih d rest r' (fun a ha => hall a (List.mem_cons_of_mem _ ha)) ?_
        simp only [List.length_cons] at hlen
        omega

/-- C5 witness: one timeout then a success within a budget of three
retries yields the eventual success result. -/
theorem retry_loop_behavior_witness :
    updateClaimRetry [Attempt.err ErrKind.timeout, Attempt.succ [("id", JValue.vNum 7)]] 3 =
      UpdResult.ok [("id", JValue.vNum 7)] := by
  have h := retry_loop_behavior.2.2.2.2.2 [Attempt.err ErrKind.timeout]
    [("id", JValue.vNum 7)] [] 3
    (by
      intro a ha
      simp only [List.mem_singleton] at ha
      exact ⟨ErrKind.timeout, ha⟩)
    (by simp)
  simpa using h

/-- C6: with a current claim selected, the manager merges the
(date-formatted) partial update into the held current claim and into
every entry of the claims list and the search results carrying that
claim's id before the PUT settles; and on PUT success it replaces the
current claim and both lists with the server row mapped into the internal
shape, so the server-normalized fields win over the optimistic guess. -/
theorem optimistic_then_committed (mapApi : Obj → Obj) (user : Option UserInfo)
    (st : MgrState) (upd : Obj) (resp refetch : ApiResp) (cur d : Obj)
    (hcur : st.currentClaim = some cur) (hs : resp.success = true)
    (hd : resp.data = some d) :
    (updateClaimMgr mapApi user st upd resp refetch).optimistic =
      { claims := replaceById st.claims (getKey cur "id")
          (mergeObj cur (ctxFormatDateFields upd))
        searchResults := replaceById st.searchResults (getKey cur "id")
          (mergeObj cur (ctxFormatDateFields upd))
        currentClaim := some (mergeObj cur (ctxFormatDateFields upd))
        error := none } ∧
    (updateClaimMgr mapApi user st upd resp refetch).final =
      { claims := replaceById
          (replaceById st.claims (getKey cur "id") (mergeObj cur (ctxFormatDateFields upd)))
          (getKey (mapApi d) "id") (mapApi d)
        searchResults := replaceById
          (replaceById st.searchResults (getKey cur "id")
            (mergeObj cur (ctxFormatDateFields upd)))
          (getKey (mapApi d) "id") (mapApi d)
        currentClaim := some (mapApi d)
        error := none } ∧
    (updateClaimMgr mapApi user st upd resp refetch).result = Except.ok (mapApi d) := by
  obtain ⟨rs, rd, rm⟩ := resp
  simp only at hs hd
  subst hs
  subst hd
  simp [updateClaimMgr, hcur]

/-- C6 witness: a concrete update run through the manager shows the
optimistic merge in current claim and both lists, then the committed
server row everywhere. -/
theorem optimistic_then_committed_witness :
    (updateClaimMgr id none wState wUpd
        { success := true, data := some wServerRow, message := none }
        { success := false, data := none, message := none }).optimistic.currentClaim =
      some [("id", JValue.vNum 1), ("claim_status", JValue.vStr "Insurance Paid")] ∧
    (updateClaimMgr id none wState wUpd
        { success := true, data := some wServerRow, message := none }
        { success := false, data := none, message := none }).final.currentClaim =
      some wServerRow ∧
    (updateClaimMgr id none wState wUpd
        { success := true, data := some wServerRow, message := none }
        { success := false, data := none, message := none }).final.claims = [wServerRow] := by
  have h := optimistic_then_committed id none wState wUpd
    { success := true, data := some wServerRow, message := none }
    { success := false, data := none, message := none } wCur wServerRow rfl rfl rfl
  refine ⟨?_, ?_, ?_⟩
  · rw [h.1]
    decide
  · rw [h.2.1]
    rfl
  · rw [h.2.1]
    decide

/-- C7 counterexample: when the PUT fails and the rollback re-fetch also
fails, the manager leaves the optimistic merge in place — the final
current claim is the merged (optimistic) claim, which differs from the
pre-update (last-known-good) claim. -/
theorem rollback_refetch_failure_counterexample :
    (updateClaimMgr id none wState wUpd
        { success := false, data := none, message := some "Network error" }
        { success := false, data := none, message := none }).final.currentClaim =
      some (mergeObj wCur (ctxFormatDateFields wUpd)) ∧
    mergeObj wCur (ctxFormatDateFields wUpd) ≠ wCur ∧
    (updateClaimMgr id none wState wUpd
        { success := false, data := none, message := some "Network error" }
        { success := false, data := none, message := none }).final.currentClaim ≠
      some wCur := by
  refine ⟨rfl, by decide, by decide⟩

/-- C7 (amended): when the PUT fails, the manager surfaces the failure
message (in the error state and as the rejection) and re-fetches the
claim by id; if the re-fetch succeeds, current claim and both lists are
replaced by the mapped re-fetched row, discarding the optimistic guess;
if the re-fetch itself fails, the local state remains at the OPTIMISTIC
(merged) value — not the pre-update value — and the error is still
surfaced. -/
theorem rollback_on_failure (mapApi : Obj → Obj) (user : Option UserInfo)
    (st : MgrState) (upd : Obj) (resp refetch : ApiResp) (cur : Obj)
    (hcur : st.currentClaim = some cur)
    (hfail : resp.success = false ∨ resp.data = none) :
    (updateClaimMgr mapApi user st upd resp refetch).result =
      Except.error (jsOrString resp.message "Failed to update claim in database") ∧
    (updateClaimMgr mapApi user st upd resp refetch).final.error =
      some (jsOrString resp.message "Failed to update claim in database") ∧
    (∀ d1, refetch.success = true → refetch.data = some d1 →
      (updateClaimMgr mapApi user st upd resp refetch).final =
        { claims := replaceById
            (updateClaimMgr mapApi user st upd resp refetch).optimistic.claims
            (getKey cur "id") (mapApi d1)
          searchResults := replaceById
            (updateClaimMgr mapApi user st upd resp refetch).optimistic.searchResults
            (getKey cur "id") (mapApi d1)
          currentClaim := some (mapApi d1)
          error := some (jsOrString resp.message "Failed to update claim in database") }) ∧
    (refetch.success = false ∨ refetch.data = none →
      (updateClaimMgr mapApi user st upd resp refetch).final =
        { (updateClaimMgr mapApi user st upd resp refetch).optimistic with
            error := some (jsOrString resp.message "Failed to update claim in database") }) := by
  obtain ⟨rs, rd, rm⟩ := resp
  obtain ⟨qs, qd, qm⟩ := refetch
  rcases hfail with hf | hf
  · simp only at hf
    subst hf
    cases qs <;> cases qd <;> simp [updateClaimMgr, hcur]
  · simp only at hf
    subst hf
    cases rs <;> cases qs <;> cases qd <;> simp [updateClaimMgr, hcur]

/-- C7 witness: a failed PUT followed by a successful re-fetch rolls the
local state back to the re-fetched row and surfaces the failure
message. -/
theorem rollback_on_failure_witness :
    (updateClaimMgr id none wState wUpd
        { success := false, data := none, message := some "Network error" }
        { success := true, data := some wCur, message := none }).final.currentClaim =
      some wCur ∧
    (updateClaimMgr id none wState wUpd
        { success := false, data := none, message := some "Network error" }
        { success := true, data := some wCur, message := none }).result =
      Except.error "Network error" := by
  have h := rollback_on_failure id none wState wUpd
    { success := false, data := none, message := some "Network error" }
    { success := true, data := some wCur, message := none } wCur rfl (Or.inl rfl)
  constructor
  · have h3 := h.2.2.1 wCur rfl rfl
    rw [h3]
    rfl
  · rw [h.1]
    rfl

/-- C8 counterexample: the field `visitId` — a legacy/derived field
outside the canonical field set — survives the sanitizer and is sent to
the server, so the sanitizer does not strip every non-canonical
field. -/
theorem strip_noncanonical_counterexample :
    getKey (sanitizePayload [(("visitId" : String), JValue.vStr "V42")]) "visitId" =
      some (JValue.vStr "V42") := by
  decide

/-- C8 (amended): before the PUT the sanitizer deletes exactly the five
listed legacy fields — checkNumber, amount, status, updatedAt,
createdAt; any field outside that list and outside the numeric/date
lists passes through unchanged, whether canonical or not. -/
theorem strip_legacy_fields (p : Obj) :
    (∀ f ∈ legacyFields, getKey (sanitizePayload p) f = none) ∧
    (∀ f, f ∉ legacyFields → f ∉ numericFields → f ∉ dateFields →
      getKey (sanitizePayload p) f = getKey p f) := by
  constructor
  · intro f hf
    rw [getKey_sanitizePayload]
    simp [hf]
  · intro f h1 h2 h3
    rw [getKey_sanitizePayload]
    simp [h1, h2, h3]

/-- C8 witness: in a payload carrying `status` and `visitId`, the legacy
`status` is stripped while `visitId` passes through. -/
theorem strip_legacy_fields_witness :
    getKey (sanitizePayload
        [(("status" : String), JValue.vStr "Paid"),
         (("visitId" : String), JValue.vStr "V42")]) "status" = none ∧
    getKey (sanitizePayload
        [(("status" : String), JValue.vStr "Paid"),
         (("visitId" : String), JValue.vStr "V42")]) "visitId" =
      some (JValue.vStr "V42") := by
  constructor
  · exact (strip_legacy_fields _).1 "status" (by decide)
  · have h := (strip_legacy_fields
      [(("status" : String), JValue.vStr "Paid"),
       (("visitId" : String), JValue.vStr "V42")]).2 "visitId"
      (by decide) (by decide) (by decide)
    rw [h]
    decide

/-- C9: a history fetch that succeeds stores the fetched entries with no
error set, and with zero entries the view renders the empty state rather
than an error banner; an error message is only ever set for a failed
response. -/
theorem empty_history_not_error (resp : HistResp) :
    (resp.success = true →
      loadHistoryResult resp = { history := resp.data, error := none } ∧
      (resp.data = [] → renderHistory false (loadHistoryResult resp) =
        HistRender.emptyState)) ∧
    ((loadHistoryResult resp).error ≠ none → resp.success = false) := by
  constructor
  · intro hs
    constructor
    · simp [loadHistoryResult, hs]
    · intro hd
      simp [loadHistoryResult, hs, hd, renderHistory, histBody]
  · intro he
    by_cases hs : resp.success = true
    · exfalso
      apply he
      simp [loadHistoryResult, hs]
    · simpa using hs

/-- C9 witness: a successful fetch with zero entries yields an empty
history, no error, and the empty-state rendering. -/
theorem empty_history_not_error_witness :
    loadHistoryResult { success := true, data := [], message := none } =
      { history := [], error := none } ∧
    renderHistory false
        (loadHistoryResult { success := true, data := [], message := none }) =
      HistRender.emptyState := by
  have h := empty_history_not_error { success := true, data := [], message := none }
  exact ⟨(h.1 rfl).1, (h.1 rfl).2 rfl⟩

/-- C10: calling the manager's updateClaim with no current claim selected
rejects with the error "No current claim selected to update"; no payload
is handed to the API client (no request is issued), and the current
claim, the claims list and the search results are unchanged in both the
optimistic and the final state, whatever the environment responses would
have been. -/
theorem no_current_claim_guard (mapApi : Obj → Obj) (user : Option UserInfo)
    (st : MgrState) (upd : Obj) (resp refetch : ApiResp)
    (h : st.currentClaim = none) :
    (updateClaimMgr mapApi user st upd resp refetch).result =
      Except.error "No current claim selected to update" ∧
    (updateClaimMgr mapApi user st upd resp refetch).sent = none ∧
    (updateClaimMgr mapApi user st upd resp refetch).final.currentClaim = none ∧
    (updateClaimMgr mapApi user st upd resp refetch).final.claims = st.claims ∧
    (updateClaimMgr mapApi user st upd resp refetch).final.searchResults =
      st.searchResults ∧
    (updateClaimMgr mapApi user st upd resp refetch).optimistic.currentClaim = none ∧
    (updateClaimMgr mapApi user st upd resp refetch).optimistic.claims = st.claims ∧
    (updateClaimMgr mapApi user st upd resp refetch).optimistic.searchResults =
      st.searchResults := by
  simp [updateClaimMgr, h]

/-- C10 witness: with no current claim selected, a concrete call rejects
and leaves the claims list intact with nothing sent. -/
theorem no_current_claim_guard_witness :
    (updateClaimMgr id none
        { claims := [wCur], searchResults := [], currentClaim := none, error := none }
        wUpd { success := true, data := some wServerRow, message := none }
        { success := true, data := some wCur, message := none }).result =
      Except.error "No current claim selected to update" ∧
    (updateClaimMgr id none
        { claims := [wCur], searchResults := [], currentClaim := none, error := none }
        wUpd { success := true, data := some wServerRow, message := none }
        { success := true, data := some wCur, message := none }).sent = none ∧
    (updateClaimMgr id none
        { claims := [wCur], searchResults := [], currentClaim := none, error := none }
        wUpd { success := true, data := some wServerRow, message := none }
        { success := true, data := some wCur, message := none }).final.claims = [wCur] := by
  have h := no_current_claim_guard id none
    { claims := [wCur], searchResults := [], currentClaim := none, error := none }
    wUpd { success := true, data := some wServerRow, message := none }
    { success := true, data := some wCur, message := none } rfl
  exact ⟨h.1, h.2.1, h.2.2.2.1⟩
